import Mathlib

namespace Traffic

/-- The four cardinal road directions used by the simulation
("Right", "Left", "Up", "Down" in the Python source). -/
inductive Dir
  | Right
  | Left
  | Up
  | Down
deriving DecidableEq

/-- Grid coordinates: (x, y) pairs, as used by the mesa grid. -/
abbrev Coord := Int × Int

/-- Road agent (agent.py, class Road): a flow direction plus the
is_decorative_road flag (the flag is never read by the engine code). -/
structure RoadA where
  direction : Dir
  is_decorative_road : Bool
deriving DecidableEq

/-- Traffic_Light agent (agent.py, class Traffic_Light): boolean state
(true = green/passable) and cycle length timeToChange. -/
structure LightA where
  uid : Nat
  pos : Coord
  state : Bool
  timeToChange : Nat
deriving DecidableEq

/-- Car agent fields (agent.py, Car.__init__).  The state tag is kept as the
string the Python code stores ("calculating", "moving", "waiting",
"unjamming", "arrived").  dest is the coordinate of the Destination agent's
cell.  The constants patience, recalculateThreshold and maxUnjammingAttempts
are fixed at creation and never change, so they live as global definitions. -/
structure CarA where
  uid : Nat
  pos : Coord
  dest : Coord
  path : List Coord
  pathIndex : Nat
  state : String
  dirActual : Dir
  nextDir : Dir
  steps_taken : Nat
  stuckCounter : Nat
  waitCounter : Nat
  lastPosition : Option Coord
  unjammingAttempts : Nat
deriving DecidableEq

/-- Car.patience (agent.py line 65). -/
def patience : Nat := 2

/-- Car.recalculateThreshold (agent.py line 66). -/
def recalculateThreshold : Nat := 5

/-- Car.maxUnjammingAttempts (agent.py line 71). -/
def maxUnjammingAttempts : Nat := 2

/-- The whole simulation state: the static grid contents (roads, obstacles,
destinations as functions of the coordinate, each cell holding at most one
static agent, as built by the map parser in CityModel.__init__), the dynamic
agents (lights, cars), the CityModel counters, and the two random streams.

sVals models the model's seeded RNG (self.random, seeded in
CityModel.__init__ via super().__init__(seed=seed)); each draw is read at
index sIdx.  gBits models Python's global random module (imported at the top
of agent.py and NOT seeded by the model): gBits n is the outcome of the n-th
global draw's comparison random.random() < 0.1, consumed at index gIdx. -/
structure World where
  width : Nat
  height : Nat
  roads : Coord → Option RoadA
  obstacles : Coord → Bool
  destList : List Coord
  lights : List LightA
  cars : List CarA
  spawnSteps : Nat
  steps : Nat
  running : Bool
  totCarsSpawned : Nat
  totCarsArrived : Nat
  totStepsTaken : Nat
  totSemaforosFound : Nat
  embotellamientos : Nat
  cars_arrived_this_step : Nat
  traffic_jams_this_step : Nat
  carsSpawnedThisStep : Nat
  agent_id_counter : Nat
  sVals : Nat → Nat
  sIdx : Nat
  gBits : Nat → Bool
  gIdx : Nat

/-- Bounds check 0 <= x < width and 0 <= y < height, used by every grid query. -/
def inBounds (w : World) (pos : Coord) : Bool :=
  decide (0 ≤ pos.1 ∧ pos.1 < (w.width : Int) ∧ 0 ≤ pos.2 ∧ pos.2 < (w.height : Int))

/-- Whether a Destination agent occupies the cell (model.destinations holds
one entry per Destination agent created by the map parser). -/
def hasDest (w : World) (pos : Coord) : Bool :=
  w.destList.any (fun d => decide (d = pos))

/-- The Traffic_Light occupying the cell, if any (the map parser places at
most one static agent per cell). -/
def lightAt (w : World) (pos : Coord) : Option LightA :=
  w.lights.find? (fun l => decide (l.pos = pos))

/-- The cars currently occupying the cell. -/
def carsAt (w : World) (pos : Coord) : List CarA :=
  w.cars.filter (fun c => decide (c.pos = pos))

/-- CityModel.isValidRoad (model.py lines 163-189): in bounds, no Obstacle,
and at least one of Road / Traffic_Light / Destination present. -/
def isValidRoad (w : World) (pos : Coord) : Bool :=
  if ¬ inBounds w pos then false
  else if w.obstacles pos then false
  else (w.roads pos).isSome || (lightAt w pos).isSome || hasDest w pos

/-- The list of Road directions found on the four orthogonal neighbors, in
the scan order (1,0), (-1,0), (0,1), (0,-1) used by getRoadDirection. -/
def neighborRoadDirs (w : World) (pos : Coord) : List Dir :=
  ([((1 : Int), (0 : Int)), (-1, 0), (0, 1), (0, -1)]).filterMap
    (fun d =>
      let q : Coord := (pos.1 + d.1, pos.2 + d.2)
      if inBounds w q then (w.roads q).map (fun r => r.direction) else none)

/-- Python computes max(set(directions), key=directions.count); ties between
equally common directions are broken by the iteration order of a Python set
of strings, which is interpreter-dependent.  We fix the canonical candidate
order Right, Left, Up, Down; the theorems about this function only use the
argmax property, which holds for any tie-break. -/
def majorityDir (ds : List Dir) : Dir :=
  [Dir.Right, Dir.Left, Dir.Up, Dir.Down].foldl
    (fun best d => if ds.count d > ds.count best then d else best) Dir.Right

/-- CityModel.getRoadDirection (model.py lines 191-236): none out of bounds;
a Road cell yields its direction; a Traffic_Light/Destination cell yields
the most common direction among orthogonal neighboring Roads, defaulting to
Right when no neighbor carries one; any other cell yields Right. -/
def getRoadDirection (w : World) (pos : Coord) : Option Dir :=
  if ¬ inBounds w pos then none
  else
    match w.roads pos with
    | some r => some r.direction
    | none =>
      if (lightAt w pos).isSome || hasDest w pos then
        let ds := neighborRoadDirs w pos
        if ds.isEmpty then some Dir.Right else some (majorityDir ds)
      else some Dir.Right

/-- CityModel.isMoveAllowedByRoad (model.py lines 238-271): blocks only the
displacement component that opposes the flow direction resolved at the
source cell; vacuously true when no direction resolves (out of bounds). -/
def isMoveAllowedByRoad (w : World) (currentPos nextPos : Coord) : Bool :=
  match getRoadDirection w currentPos with
  | none => true
  | some d =>
    let dx := nextPos.1 - currentPos.1
    let dy := nextPos.2 - currentPos.2
    match d with
    | Dir.Right => decide (dx ≥ 0)
    | Dir.Left => decide (dx ≤ 0)
    | Dir.Up => decide (dy ≥ 0)
    | Dir.Down => decide (dy ≤ 0)

/-- All pathfinding cost constants in the source (1.0 and 1.4 in
getAllowedMoves, timeToChange * 0.2, 80 and 150 in getCellWeight/findPath)
are exact integer multiples of 1/5, so the cost arithmetic is represented
throughout on the x5 integer scale (1.0 -> 5, 1.4 -> 7, ttc * 0.2 -> ttc,
80 -> 400, 150 -> 750, and the integer Manhattan heuristic h -> 5 * h).
Scaling by 5 preserves every sum and comparison exactly, so the search
explores and returns exactly the same paths. -/
abbrev Cost := Int

/-- CityModel.getAllowedMoves (model.py lines 273-321).  The pos parameter of
the Python method is unused and dropped.  The direction argument is the
already-resolved road direction; the none case is the Python else branch for
a direction outside the four cardinal strings (reachable in findPath only
through the None-to-"Right" fallback, so never with none here).  Costs on
the x5 scale: straight 1.0 -> 5, diagonal lane change 1.4 -> 7. -/
def getAllowedMoves (direction : Option Dir) : List (Int × Int × Cost) :=
  match direction with
  | some Dir.Right => [(1, 0, 5), (1, 1, 7), (1, -1, 7)]
  | some Dir.Left => [(-1, 0, 5), (-1, 1, 7), (-1, -1, 7)]
  | some Dir.Up => [(0, 1, 5), (1, 1, 7), (-1, 1, 7)]
  | some Dir.Down => [(0, -1, 5), (1, -1, 7), (-1, -1, 7)]
  | none => [(0, 1, 5), (0, -1, 5), (1, 0, 5), (-1, 0, 5)]

/-- CityModel.heuristic (model.py lines 150-161): Manhattan distance. -/
def heuristic (pos1 pos2 : Coord) : Int :=
  (pos1.1 - pos2.1).natAbs + (pos1.2 - pos2.2).natAbs

/-- CityModel.getCellWeight (model.py lines 323-355): a Traffic_Light adds
timeToChange * 0.2 (x5 scale: timeToChange); a Destination adds 0; with
avoidCars each Car in the cell adds 80 (x5 scale: 400) unless a Destination
shares the cell. -/
def getCellWeight (w : World) (pos : Coord) (avoidCars : Bool) : Cost :=
  let lightW : Cost :=
    match lightAt w pos with
    | some l => (l.timeToChange : Int)
    | none => 0
  let carW : Cost :=
    if avoidCars ∧ ¬ hasDest w pos then 400 * ((carsAt w pos).length : Int) else 0
  lightW + carW

/-- Association-list lookup with Python-dict read semantics; writes are
modelled by prepending, so the first hit is the current binding. -/
def alookup {β : Type} (l : List (Coord × β)) (k : Coord) : Option β :=
  (l.find? (fun p => decide (p.1 = k))).map (fun p => p.2)

/-- The mutable state of the A* loop in CityModel.findPath: the open list of
(fScore, node) pairs, the predecessor map, the g-score map and the visited
set (kept as a list in insertion order).  The Python fScore dict is written
but never read after initialization (the pop scans the openSet tuples), so
it is omitted. -/
structure AStarState where
  openSet : List (Cost × Coord)
  cameFrom : List (Coord × Coord)
  gScore : List (Coord × Cost)
  visited : List Coord

/-- The naive min-extraction of findPath (model.py lines 389-395): the scan
keeps the first index whose f value is strictly smaller, so the element
removed is the first occurrence of the minimum. -/
def popMinFirst : (Cost × Coord) → List (Cost × Coord) →
    ((Cost × Coord) × List (Cost × Coord))
  | e, [] => (e, [])
  | e, f :: rest =>
    let r := popMinFirst f rest
    if r.1.1 < e.1 then (r.1, e :: r.2) else (e, f :: rest)

/-- openSet.pop(minIdx): none when the open list is empty. -/
def popMin (l : List (Cost × Coord)) : Option ((Cost × Coord) × List (Cost × Coord)) :=
  match l with
  | [] => none
  | e :: rest => some (popMinFirst e rest)

/-- One pass of the inner neighbor loop of CityModel.findPath (model.py
lines 417-446) for the move m = (dx, dy, moveCost) out of current, whose
g-score is gCur.  Costs on the x5 scale: against-flow penalty 150 -> 750,
heuristic h -> 5 * h. -/
def expandNeighbor (w : World) (endP : Coord) (avoidCars : Bool) (current : Coord)
    (gCur : Cost) (st : AStarState) (m : Int × Int × Cost) : AStarState :=
  let neighbor : Coord := (current.1 + m.1, current.2 + m.2.1)
  if neighbor ∈ st.visited ∨ ¬ isValidRoad w neighbor then st
  else
    let cellWeight := getCellWeight w neighbor avoidCars
    let penalty : Cost :=
      match getRoadDirection w neighbor with
      | none => 0
      | some nd =>
        if (nd = Dir.Right ∧ m.1 < 0) ∨ (nd = Dir.Left ∧ m.1 > 0) ∨
            (nd = Dir.Up ∧ m.2.1 < 0) ∨ (nd = Dir.Down ∧ m.2.1 > 0) then 750 else 0
    let tentativeG := gCur + m.2.2 + cellWeight + penalty
    let better :=
      match alookup st.gScore neighbor with
      | none => true
      | some gN => decide (tentativeG < gN)
    if better then
      { st with
        cameFrom := (neighbor, current) :: st.cameFrom,
        gScore := (neighbor, tentativeG) :: st.gScore,
        openSet := st.openSet ++ [(tentativeG + 5 * heuristic neighbor endP, neighbor)] }
    else st

/-- The path-reconstruction loop of findPath (model.py lines 398-404),
building the reversed list directly by prepending.  The Python loop is
unbounded (while current in cameFrom); here it carries fuel, and none marks
the case where the fuel runs out mid-chain, i.e. where the Python loop
would still be running; the search invariant proves this unreachable. -/
def reconstructPath (cameFrom : List (Coord × Coord)) :
    Nat → Coord → List Coord → Option (List Coord)
  | fuel, cur, acc =>
    match alookup cameFrom cur with
    | none => some acc
    | some prev =>
      match fuel with
      | 0 => none
      | fuel2 + 1 => reconstructPath cameFrom fuel2 prev (cur :: acc)

/-- The main A* loop of CityModel.findPath (model.py lines 386-448).  The
iteration budget is the structural fuel (the Python condition iterations <
maxIterations is checked before each pass and the counter incremented
inside), and the iteration count is returned with the result.  The gScore
default 0 is never read: every openSet node receives a gScore binding when
inserted, as start does at initialization (Python indexes the dict
directly). -/
def aStarLoop (w : World) (endP : Coord) (avoidCars : Bool) :
    Nat → AStarState → Nat → Option (List Coord) × Nat
  | 0, _, iters => (some [], iters)
  | fuel + 1, st, iters =>
    match popMin st.openSet with
    | none => (some [], iters)
    | some (cur, rest) =>
      if cur.2 = endP then
        (reconstructPath st.cameFrom (st.visited.length + 1) endP [], iters + 1)
      else
        let visited2 := if cur.2 ∈ st.visited then st.visited else st.visited ++ [cur.2]
        let dirC := (getRoadDirection w cur.2).getD Dir.Right
        let gCur := (alookup st.gScore cur.2).getD 0
        let st2 := (getAllowedMoves (some dirC)).foldl
          (expandNeighbor w endP avoidCars cur.2 gCur)
          { st with openSet := rest, visited := visited2 }
        aStarLoop w endP avoidCars fuel st2 (iters + 1)

/-- CityModel.findPath (model.py lines 357-448), returning the result
together with the number of loop iterations executed (the Python iterations
counter).  The result is none only if path reconstruction would diverge,
which the totality theorem below rules out. -/
def findPathRun (w : World) (start endP : Coord) (avoidCars : Bool) :
    Option (List Coord) × Nat :=
  if start = endP then (some [endP], 0)
  else
    let st0 : AStarState :=
      { openSet := [(0, start)], cameFrom := [], gScore := [(start, 0)], visited := [] }
    aStarLoop w endP avoidCars (w.width * w.height * 25) st0 0

/-- The value returned by CityModel.findPath. -/
def findPath (w : World) (start endP : Coord) (avoidCars : Bool) : Option (List Coord) :=
  (findPathRun w start endP avoidCars).1

/-- The iterations counter of CityModel.findPath when it returns. -/
def findPathIters (w : World) (start endP : Coord) (avoidCars : Bool) : Nat :=
  (findPathRun w start endP avoidCars).2

/-- findPath as seen by its callers; the totality theorem shows the default
branch is never taken. -/
def findPathL (w : World) (start endP : Coord) (avoidCars : Bool) : List Coord :=
  (findPath w start endP avoidCars).getD []

/-- Unit-or-diagonal adjacency: both displacement components at most 1 and
the step nonzero. -/
def adjacentStep (p q : Coord) : Bool :=
  decide ((q.1 - p.1).natAbs ≤ 1 ∧ (q.2 - p.2).natAbs ≤ 1 ∧ q ≠ p)

/-- The path-legality property of the path-legality claim, checked along the
path from the given predecessor: every coordinate is a valid road cell (in
bounds, obstacle free, carrying road infrastructure), every step is unit or
diagonal, and every step satisfies isMoveAllowedByRoad from its predecessor
(the first from the start cell). -/
def pathLegal (w : World) : Coord → List Coord → Bool
  | _, [] => true
  | prev, c :: rest =>
    adjacentStep prev c && isValidRoad w c && isMoveAllowedByRoad w prev c &&
      pathLegal w c rest

/-- Car.getMovementDirection (agent.py lines 122-146). -/
def getMovementDirection (currentPos nextPos : Coord) : Dir :=
  let dx := nextPos.1 - currentPos.1
  let dy := nextPos.2 - currentPos.2
  if dx ≠ 0 ∧ dy = 0 then (if dx > 0 then Dir.Right else Dir.Left)
  else if dy ≠ 0 ∧ dx = 0 then (if dy > 0 then Dir.Up else Dir.Down)
  else if dx.natAbs > dy.natAbs then (if dx > 0 then Dir.Right else Dir.Left)
  else (if dy > 0 then Dir.Up else Dir.Down)

/-- The car, direction-sign and road-direction checks of Car.canMoveTo after
the destination, obstacle and red-light checks (agent.py lines 194-222). -/
def canMoveToTail (w : World) (car : CarA) (currentPos nextPos : Coord)
    (considerDirection : Option Dir) : Bool × Nat :=
  if w.cars.any (fun c => decide (c.pos = nextPos ∧ c.uid ≠ car.uid)) then (false, 0)
  else
    let dx := nextPos.1 - currentPos.1
    let dy := nextPos.2 - currentPos.2
    let checkDirection := considerDirection.getD car.dirActual
    let blockedBySign :=
      match checkDirection with
      | Dir.Right => decide (dx ≤ 0)
      | Dir.Left => decide (dx ≥ 0)
      | Dir.Up => decide (dy ≤ 0)
      | Dir.Down => decide (dy ≥ 0)
    if blockedBySign then (false, 0)
    else if ¬ isMoveAllowedByRoad w currentPos nextPos then (false, 0)
    else (true, 0)

/-- Car.canMoveTo (agent.py lines 148-222).  The Bool is the return value;
the Nat is the number of model.totSemaforosFound increments performed by
the red-light check (a side effect of the Python method).  The Python
self.cell-is-None early return cannot fire for a live car (live cars always
occupy a cell) and is omitted. -/
def canMoveTo (w : World) (car : CarA) (nextPos : Coord) (considerDirection : Option Dir) :
    Bool × Nat :=
  if ¬ inBounds w nextPos then (false, 0)
  else
    let currentPos := car.pos
    if hasDest w nextPos then
      (if w.obstacles nextPos then false else true, 0)
    else if w.obstacles nextPos then (false, 0)
    else
      match lightAt w nextPos with
      | some l =>
        if l.state = false then (false, 1)
        else canMoveToTail w car currentPos nextPos considerDirection
      | none => canMoveToTail w car currentPos nextPos considerDirection

/-- Car.getValidForwardMoves (agent.py lines 224-276): the straight and two
diagonal forward targets for the facing direction, each filtered by bounds
and isValidRoad; entries are (newDirection, newPosition, isDiagonal). -/
def getValidForwardMoves (w : World) (car : CarA) (useDirection : Option Dir) :
    List (Dir × Coord × Bool) :=
  let x := car.pos.1
  let y := car.pos.2
  let direction := useDirection.getD car.dirActual
  let possibleMoves : List (Dir × Coord × Bool) :=
    match direction with
    | Dir.Right => [(Dir.Right, (x + 1, y), false), (Dir.Right, (x + 1, y + 1), true),
        (Dir.Right, (x + 1, y - 1), true)]
    | Dir.Left => [(Dir.Left, (x - 1, y), false), (Dir.Left, (x - 1, y + 1), true),
        (Dir.Left, (x - 1, y - 1), true)]
    | Dir.Up => [(Dir.Up, (x, y + 1), false), (Dir.Up, (x + 1, y + 1), true),
        (Dir.Up, (x - 1, y + 1), true)]
    | Dir.Down => [(Dir.Down, (x, y - 1), false), (Dir.Down, (x + 1, y - 1), true),
        (Dir.Down, (x - 1, y - 1), true)]
  possibleMoves.filter (fun mv => inBounds w mv.2.1 && isValidRoad w mv.2.1)

/-- First element attaining the minimal distance: Python stable-sorts the
candidate list by distance and takes element 0, which is the earliest
candidate with minimal distance. -/
def pickMinDist : (Dir × Coord × Int) → List (Dir × Coord × Int) → Dir × Coord
  | best, [] => (best.1, best.2.1)
  | best, e :: rest =>
    if e.2.2 < best.2.2 then pickMinDist e rest else pickMinDist best rest

/-- Car.findAlternativeMove (agent.py lines 278-319): among the valid
forward moves that pass canMoveTo, prefer the straight move, then the
diagonal closest to the destination.  The Nat accumulates the
totSemaforosFound increments performed by the embedded canMoveTo calls. -/
def findAlternativeMove (w : World) (car : CarA) (fromDirection : Option Dir) :
    Option (Dir × Coord) × Nat :=
  let checkDir := fromDirection.getD car.dirActual
  let validMoves := getValidForwardMoves w car (some checkDir)
  let destPos := car.dest
  let compiled := validMoves.foldl
    (fun (acc : List (Dir × Coord × Int) × List (Dir × Coord × Int) × Nat) mv =>
      let r := canMoveTo w car mv.2.1 (some checkDir)
      let sems := acc.2.2 + r.2
      if r.1 then
        let entry := (mv.1, mv.2.1, heuristic mv.2.1 destPos)
        if mv.2.2 then (acc.1, acc.2.1 ++ [entry], sems)
        else (acc.1 ++ [entry], acc.2.1, sems)
      else (acc.1, acc.2.1, sems))
    ([], [], 0)
  match compiled.1 with
  | e :: rest => (some (pickMinDist e rest), compiled.2.2)
  | [] =>
    match compiled.2.1 with
    | e :: rest => (some (pickMinDist e rest), compiled.2.2)
    | [] => (none, compiled.2.2)

/-- Car.updateDirection (agent.py lines 321-361).  The Python method reads
self.cell.coordinate AFTER the caller has already moved the car, so the car
argument here is the already-moved record: with no explicit direction the
dx/dy computed from the own (new) position and nextPos are both 0, hence
dirActual is left unchanged, exactly as in the source; nextDir is then
derived from path[pathIndex] relative to nextPos. -/
def updateDirection (car : CarA) (nextPos : Coord) (newDirection : Option Dir) : CarA :=
  match newDirection with
  | some d => { car with dirActual := d, nextDir := d }
  | none =>
    let currentPos := car.pos
    let dx := nextPos.1 - currentPos.1
    let dy := nextPos.2 - currentPos.2
    let car1 :=
      if dx ≠ 0 ∧ dy = 0 then
        { car with dirActual := if dx > 0 then Dir.Right else Dir.Left }
      else if dy ≠ 0 ∧ dx = 0 then
        { car with dirActual := if dy > 0 then Dir.Up else Dir.Down }
      else car
    if car1.path ≠ [] ∧ car1.pathIndex < car1.path.length then
      let nextPathPos := car1.path.getD car1.pathIndex (0, 0)
      let nextDx := nextPathPos.1 - nextPos.1
      let nextDy := nextPathPos.2 - nextPos.2
      if nextDx ≠ 0 ∧ nextDy = 0 then
        { car1 with nextDir := if nextDx > 0 then Dir.Right else Dir.Left }
      else if nextDy ≠ 0 ∧ nextDx = 0 then
        { car1 with nextDir := if nextDy > 0 then Dir.Up else Dir.Down }
      else { car1 with nextDir := car1.dirActual }
    else { car1 with nextDir := car1.dirActual }

/-- Car.calculatePath (agent.py lines 93-120): A* avoiding cars first, then
without avoiding cars; sets state and stuckCounter accordingly. -/
def calculatePathCar (w : World) (car : CarA) : CarA :=
  let p1 := findPathL w car.pos car.dest true
  let car1 := { car with path := p1, pathIndex := 0 }
  if car1.path ≠ [] then { car1 with state := "moving", stuckCounter := 0 }
  else
    let p2 := findPathL w car.pos car.dest false
    let car2 := { car1 with path := p2 }
    if car2.path ≠ [] then { car2 with state := "moving", stuckCounter := 0 }
    else { car2 with state := "waiting", stuckCounter := car2.stuckCounter + 1 }

/-- Store back the (in-place mutated) car record with the given uid. -/
def putCar (w : World) (car : CarA) : World :=
  { w with cars := w.cars.map (fun c => if c.uid = car.uid then car else c) }

/-- The arrival action of Car.step (agent.py lines 380-385, 422-426 and
487-491): the arrival counters are incremented exactly once and the agent
is removed from the grid and the live agent set (Car.remove()). -/
def arriveCar (w : World) (car : CarA) : World :=
  { w with
    cars := w.cars.eraseP (fun c => decide (c.uid = car.uid)),
    totCarsArrived := w.totCarsArrived + 1,
    cars_arrived_this_step := w.cars_arrived_this_step + 1 }

/-- The moving branch of Car.step (agent.py lines 393-462). -/
def movingBranch (w : World) (car : CarA) : World :=
  if car.path = [] ∨ car.pathIndex ≥ car.path.length then
    if car.pos ≠ car.dest then
      putCar w (calculatePathCar w { car with state := "calculating" })
    else w
  else
    let nextPos := car.path.getD car.pathIndex (0, 0)
    let moveDirection := getMovementDirection car.pos nextPos
    let r := canMoveTo w car nextPos (some moveDirection)
    let w1 := { w with totSemaforosFound := w.totSemaforosFound + r.2 }
    if r.1 then
      let car1 := { car with
        pos := nextPos, pathIndex := car.pathIndex + 1,
        steps_taken := car.steps_taken + 1, stuckCounter := 0,
        waitCounter := 0, lastPosition := some nextPos }
      let car2 := updateDirection car1 nextPos none
      let w2 := { w1 with totStepsTaken := w1.totStepsTaken + 1 }
      if hasDest w2 nextPos then arriveCar w2 car2 else putCar w2 car2
    else
      let car1 := { car with
        stuckCounter := car.stuckCounter + 1, waitCounter := car.waitCounter + 1 }
      let bit := w1.gBits w1.gIdx
      let w2 := { w1 with gIdx := w1.gIdx + 1 }
      if bit then
        let car2 := calculatePathCar w2 car1
        putCar w2 { car2 with stuckCounter := 0, waitCounter := 0, state := "moving" }
      else
        let ar := findAlternativeMove w2 car1 none
        let w3 := { w2 with totSemaforosFound := w2.totSemaforosFound + ar.2 }
        match ar.1 with
        | some dn =>
          let car2 := { car1 with pos := dn.2, steps_taken := car1.steps_taken + 1 }
          let car3 := updateDirection car2 dn.2 (some dn.1)
          let car4 := { car3 with stuckCounter := 0, waitCounter := 0, state := "moving" }
          putCar { w3 with totStepsTaken := w3.totStepsTaken + 1 } car4
        | none =>
          if car1.stuckCounter ≥ recalculateThreshold then
            putCar w3 { car1 with state := "unjamming", unjammingAttempts := 0 }
          else putCar w3 { car1 with state := "waiting" }

/-- The tail of the waiting branch after the path-clear attempt (agent.py
lines 494-513): try an alternative move, else possibly escalate to
unjamming. -/
def waitingTail (w : World) (car0 : CarA) : World :=
  let ar := findAlternativeMove w car0 none
  let w1 := { w with totSemaforosFound := w.totSemaforosFound + ar.2 }
  match ar.1 with
  | some dn =>
    let car1 := { car0 with pos := dn.2, steps_taken := car0.steps_taken + 1 }
    let car2 := updateDirection car1 dn.2 (some dn.1)
    let car3 := { car2 with stuckCounter := 0, waitCounter := 0, state := "moving" }
    putCar { w1 with totStepsTaken := w1.totStepsTaken + 1 } car3
  | none =>
    if car0.stuckCounter ≥ recalculateThreshold ∨ car0.waitCounter ≥ patience then
      putCar w1 { car0 with state := "unjamming", unjammingAttempts := 0 }
    else putCar w1 car0

/-- The waiting branch of Car.step (agent.py lines 465-513). -/
def waitingBranch (w : World) (car : CarA) : World :=
  let car0 := { car with waitCounter := car.waitCounter + 1 }
  if car0.path ≠ [] ∧ car0.pathIndex < car0.path.length then
    let nextPos := car0.path.getD car0.pathIndex (0, 0)
    let moveDirection := getMovementDirection car0.pos nextPos
    let r := canMoveTo w car0 nextPos (some moveDirection)
    let w1 := { w with totSemaforosFound := w.totSemaforosFound + r.2 }
    if r.1 then
      let car1 := { car0 with
        pos := nextPos, pathIndex := car0.pathIndex + 1,
        steps_taken := car0.steps_taken + 1, stuckCounter := 0, waitCounter := 0 }
      let car2 := updateDirection car1 nextPos none
      let car3 := { car2 with state := "moving" }
      let w2 := { w1 with totStepsTaken := w1.totStepsTaken + 1 }
      if hasDest w2 nextPos then arriveCar w2 car3 else putCar w2 car3
    else waitingTail w1 car0
  else waitingTail w car0

/-- The tail of the unjamming branch (agent.py lines 536-566): alternative
move, else after more than maxUnjammingAttempts attempts an aggressive
recalculation with avoidCars=False (note: no history-based penalty exists
anywhere in the search interface). -/
def unjammingTail (w : World) (car0 : CarA) : World :=
  let ar := findAlternativeMove w car0 none
  let w1 := { w with totSemaforosFound := w.totSemaforosFound + ar.2 }
  match ar.1 with
  | some dn =>
    let car1 := { car0 with pos := dn.2, steps_taken := car0.steps_taken + 1 }
    let car2 := updateDirection car1 dn.2 (some dn.1)
    let car3 := { car2 with
        stuckCounter := 0, waitCounter := 0, unjammingAttempts := 0,
        state := "moving" }
    putCar { w1 with totStepsTaken := w1.totStepsTaken + 1 } car3
  | none =>
    if car0.unjammingAttempts > maxUnjammingAttempts then
      let car1 := { car0 with
        path := findPathL w1 car0.pos car0.dest false,
        pathIndex := 0, stuckCounter := 0, waitCounter := 0, state := "moving" }
      putCar { w1 with
        embotellamientos := w1.embotellamientos + 1,
        traffic_jams_this_step := w1.traffic_jams_this_step + 1 } car1
    else putCar w1 car0

/-- The unjamming branch of Car.step (agent.py lines 516-566); note the
source performs no arrival check after a successful path move here. -/
def unjammingBranch (w : World) (car : CarA) : World :=
  let car0 := { car with unjammingAttempts := car.unjammingAttempts + 1 }
  if car0.path ≠ [] ∧ car0.pathIndex < car0.path.length then
    let nextPos := car0.path.getD car0.pathIndex (0, 0)
    let moveDirection := getMovementDirection car0.pos nextPos
    let r := canMoveTo w car0 nextPos (some moveDirection)
    let w1 := { w with totSemaforosFound := w.totSemaforosFound + r.2 }
    if r.1 then
      let car1 := { car0 with
        pos := nextPos, pathIndex := car0.pathIndex + 1,
        steps_taken := car0.steps_taken + 1, stuckCounter := 0,
        waitCounter := 0, unjammingAttempts := 0 }
      let car2 := updateDirection car1 nextPos none
      putCar { w1 with totStepsTaken := w1.totStepsTaken + 1 }
        { car2 with state := "moving" }
    else unjammingTail w1 car0
  else unjammingTail w car0

/-- Car.step (agent.py lines 363-566) for a live car: the arrived guard, the
destination arrival check, then the state dispatch. -/
def stepCarBody (w : World) (car : CarA) : World :=
  if car.state = "arrived" then w
  else if hasDest w car.pos then arriveCar w car
  else if car.state = "calculating" then putCar w (calculatePathCar w car)
  else if car.state = "moving" then movingBranch w car
  else if car.state = "waiting" then waitingBranch w car
  else if car.state = "unjamming" then unjammingBranch w car
  else w

/-- One scheduler call of Car.step for the agent with the given uid; a no-op
when no such car is live. -/
def stepCar (w : World) (uid : Nat) : World :=
  match w.cars.find? (fun c => decide (c.uid = uid)) with
  | none => w
  | some car => stepCarBody w car

/-- Traffic_Light.step (agent.py lines 578-581): flip exactly when the model
tick counter is divisible by timeToChange.  The tick argument is
model.steps, which mesa has already incremented for the current tick. -/
def stepLightOne (tick : Nat) (l : LightA) : LightA :=
  if tick % l.timeToChange = 0 then { l with state := ! l.state } else l

/-- One scheduler call of Traffic_Light.step for the given uid. -/
def stepLight (w : World) (uid : Nat) : World :=
  { w with lights := w.lights.map (fun l => if l.uid = uid then stepLightOne w.steps l else l) }

/-- Car.getInitialDirection (agent.py lines 82-91): the road direction at
the spawn cell, defaulting to Right (the "All" comparison in the source is
dead: getRoadDirection never produces it). -/
def getInitialDirection (w : World) (pos : Coord) : Dir :=
  (getRoadDirection w pos).getD Dir.Right

/-- Car.__init__ (agent.py lines 37-74) minus the final calculatePath call:
the freshly constructed record as registered in the agent set. -/
def newCar (w : World) (pos dest : Coord) (uid : Nat) : CarA :=
  { uid := uid, pos := pos, dest := dest, path := [], pathIndex := 0,
    state := "calculating",
    dirActual := getInitialDirection w pos, nextDir := getInitialDirection w pos,
    steps_taken := 0, stuckCounter := 0, waitCounter := 0,
    lastPosition := none, unjammingAttempts := 0 }

/-- One corner pass of CityModel.spawnCars (model.py lines 468-493): collect
the free road cells of the corner and, if any exists and destinations are
registered, place one Car there with a seeded-random destination (two
self.random.choice draws, modelled as stream value modulo list length).
The new Car's constructor runs calculatePath with the car already standing
in its cell (mesa's CellAgent registers on construction). -/
def spawnOneCorner (w : World) (coords : List Coord) : World :=
  let emptyRoads := coords.filter (fun c =>
    inBounds w c && (w.roads c).isSome && ! w.cars.any (fun car => decide (car.pos = c)))
  if emptyRoads ≠ [] ∧ w.destList ≠ [] then
    let spawnCell := emptyRoads.getD (w.sVals w.sIdx % emptyRoads.length) (0, 0)
    let destPos := w.destList.getD (w.sVals (w.sIdx + 1) % w.destList.length) (0, 0)
    let w1 := { w with sIdx := w.sIdx + 2, agent_id_counter := w.agent_id_counter + 1 }
    let base := newCar w1 spawnCell destPos w.agent_id_counter
    let w2 := { w1 with cars := w1.cars ++ [base] }
    let car1 := calculatePathCar w2 base
    { w2 with
      cars := w2.cars.map (fun c => if c.uid = car1.uid then car1 else c),
      totCarsSpawned := w2.totCarsSpawned + 1,
      carsSpawnedThisStep := w2.carsSpawnedThisStep + 1 }
  else w

/-- The four 1-cell corner regions of CityModel.spawnCars (model.py lines
457-465), in source order (cornerSize = 1 collapses each range to one
coordinate). -/
def cornerCoordLists (w : World) : List (List Coord) :=
  [[((0 : Int), (w.height : Int) - 1)],
   [((w.width : Int) - 1, (w.height : Int) - 1)],
   [((0 : Int), (0 : Int))],
   [((w.width : Int) - 1, (0 : Int))]]

/-- CityModel.spawnCars (model.py lines 450-493). -/
def spawnCarsW (w : World) : World :=
  (cornerCoordLists w).foldl spawnOneCorner w

/-- Extraction of the element at an index, returning it with the remainder. -/
def extractAt {α : Type} : List α → Nat → Option (α × List α)
  | [], _ => none
  | a :: l, 0 => some (a, l)
  | a :: l, n + 1 =>
    match extractAt l n with
    | some r => some (r.1, a :: r.2)
    | none => none

/-- Fisher-Yates shuffle driven by the seeded stream, one draw per element:
the fresh random agent ordering of each tick. -/
def shuffleGo (s : Nat → Nat) : Nat → Nat → List Nat → List Nat × Nat
  | _, i, [] => ([], i)
  | 0, i, l => (l, i)
  | fuel + 1, i, l =>
    match extractAt l (s i % l.length) with
    | some r =>
      let t := shuffleGo s fuel (i + 1) r.2
      (r.1 :: t.1, t.2)
    | none => (l, i)

/-- Shuffle a list of agent ids, returning the new stream index. -/
def shuffleWith (s : Nat → Nat) (i : Nat) (l : List Nat) : List Nat × Nat :=
  shuffleGo s l.length i l

/-- Modelled from the spec: model.py is truncated at line 525 (the comment
line "Execute all agent steps in random" is the file's last line), so the
tail of CityModel.step is missing from the source snapshot.  Per the spec
(section 4.7, Scheduler), the tick executes every live agent's step exactly
once in a freshly shuffled random order and then hands per-tick deltas to
the metrics collector, which mutates no engine state beyond the counters
the agents already maintain.  Cars and traffic lights are the only agents
whose step does anything; the shuffle is driven by the model's seeded
stream. -/
def agentPhase (w : World) : World :=
  let ids := w.lights.map (fun l => l.uid) ++ w.cars.map (fun c => c.uid)
  let sh := shuffleWith w.sVals w.sIdx ids
  let w1 := { w with sIdx := sh.2 }
  sh.1.foldl (fun wa uid =>
    if wa.lights.any (fun l => decide (l.uid = uid)) then stepLight wa uid
    else stepCar wa uid) w1

/-- mesa's automatic tick increment (Model.steps is incremented before the
user step body runs; CityModel.step observes self.steps = 1 on the first
call) followed by the per-step metric resets at the top of CityModel.step
(model.py lines 503-505). -/
def tickReset (w : World) : World :=
  { w with
    steps := w.steps + 1, cars_arrived_this_step := 0,
    traffic_jams_this_step := 0 }

/-- The spawn phase of CityModel.step (model.py lines 508-510): reset the
per-cycle spawn counter, then spawnCars. -/
def spawnPhase (w : World) : World :=
  spawnCarsW { w with carsSpawnedThisStep := 0 }

/-- CityModel.step (model.py lines 495-525 plus the spec-modelled agent
phase): on due ticks run the spawn cycle and stop the run (running := false,
skipping the agent phase) when the full cycle placed no car (model.py lines
511-519); otherwise execute the agents. -/
def modelStep (w : World) : World :=
  let w1 := tickReset w
  if w1.steps = 1 ∨ w1.steps % w1.spawnSteps = 0 then
    let w2 := spawnPhase w1
    if w2.steps ≠ 0 ∧ w2.carsSpawnedThisStep < 1 then { w2 with running := false }
    else agentPhase w2
  else agentPhase w1

/-- One scheduler call: mesa runners (the solara app of app.py, mesa's batch
runner) advance the model only while model.running holds; per spec sections
4.6 and 4.7, once the termination signal is raised no further ticks are
scheduled. -/
def schedStep (w : World) : World :=
  if w.running then modelStep w else w

/-- n scheduler calls. -/
def runSched (w : World) : Nat → World
  | 0 => w
  | n + 1 => runSched (schedStep w) n

/-- n direct Car.step calls for one car, used to trace the car state machine
with the rest of the world static. -/
def runCarSteps (w : World) (uid : Nat) : Nat → World
  | 0 => w
  | n + 1 => runCarSteps (stepCar w uid) uid n

/-! Concrete worlds used as witnesses and counterexamples. -/

/-- A 4 x 2 world: a straight eastward road (0,0) -> (1,0) -> (2,0) ending
at the Destination (3,0), with an Obstacle at (0,1). -/
def pathWorld : World :=
  { width := 4, height := 2,
    roads := fun p =>
      if p = ((0 : Int), (0 : Int)) ∨ p = (1, 0) ∨ p = (2, 0) then
        some { direction := Dir.Right, is_decorative_road := false }
      else none,
    obstacles := fun p => decide (p = ((0 : Int), (1 : Int))),
    destList := [(3, 0)], lights := [], cars := [],
    spawnSteps := 10, steps := 0, running := true,
    totCarsSpawned := 0, totCarsArrived := 0, totStepsTaken := 0,
    totSemaforosFound := 0, embotellamientos := 0,
    cars_arrived_this_step := 0, traffic_jams_this_step := 0,
    carsSpawnedThisStep := 0, agent_id_counter := 0,
    sVals := fun _ => 0, sIdx := 0, gBits := fun _ => false, gIdx := 0 }

/-- A 5 x 1 world: eastward roads at (0,0), (1,0) and (3,0), a red
Traffic_Light (timeToChange 10) at (2,0) and the Destination at (4,0).
Spawning at the corner (0,0) on tick 1 places one car heading for (4,0),
which is blocked at the red light on tick 2, reaching the global random
draw of Car.step (agent.py line 434). -/
def lightRowWorld : World :=
  { width := 5, height := 1,
    roads := fun p =>
      if p = ((0 : Int), (0 : Int)) ∨ p = (1, 0) ∨ p = (3, 0) then
        some { direction := Dir.Right, is_decorative_road := false }
      else none,
    obstacles := fun _ => false,
    destList := [(4, 0)],
    lights := [{ uid := 100, pos := (2, 0), state := false, timeToChange := 10 }],
    cars := [],
    spawnSteps := 10, steps := 0, running := true,
    totCarsSpawned := 0, totCarsArrived := 0, totStepsTaken := 0,
    totSemaforosFound := 0, embotellamientos := 0,
    cars_arrived_this_step := 0, traffic_jams_this_step := 0,
    carsSpawnedThisStep := 0, agent_id_counter := 0,
    sVals := fun _ => 0, sIdx := 0, gBits := fun _ => false, gIdx := 0 }

/-- A parked car blocking the ring exit cell (2,1) of ringWorld. -/
def parkedCar : CarA :=
  { uid := 1, pos := (2, 1), dest := (3, 1), path := [], pathIndex := 0,
    state := "waiting", dirActual := Dir.Right, nextDir := Dir.Right,
    steps_taken := 0, stuckCounter := 0, waitCounter := 0,
    lastPosition := none, unjammingAttempts := 0 }

/-- The traced car of ringWorld, freshly constructed at (0,0) heading for
the Destination (3,1). -/
def ringCar : CarA :=
  { uid := 0, pos := (0, 0), dest := (3, 1), path := [], pathIndex := 0,
    state := "calculating", dirActual := Dir.Right, nextDir := Dir.Right,
    steps_taken := 0, stuckCounter := 0, waitCounter := 0,
    lastPosition := none, unjammingAttempts := 0 }

/-- A 4 x 2 world with a directed ring (0,0) -> (1,0) -> (1,1) -> (0,1) ->
(0,0), an exit road at (2,1) leading to the Destination (3,1), a parked car
on the exit cell and the traced car at (0,0). -/
def ringWorld : World :=
  { width := 4, height := 2,
    roads := fun p =>
      if p = ((0 : Int), (0 : Int)) then some { direction := Dir.Right, is_decorative_road := false }
      else if p = (1, 0) then some { direction := Dir.Up, is_decorative_road := false }
      else if p = (1, 1) then some { direction := Dir.Left, is_decorative_road := false }
      else if p = (0, 1) then some { direction := Dir.Down, is_decorative_road := false }
      else if p = (2, 1) then some { direction := Dir.Right, is_decorative_road := false }
      else none,
    obstacles := fun _ => false,
    destList := [(3, 1)],
    lights := [],
    cars := [ringCar, parkedCar],
    spawnSteps := 10, steps := 0, running := true,
    totCarsSpawned := 2, totCarsArrived := 0, totStepsTaken := 0,
    totSemaforosFound := 0, embotellamientos := 0,
    cars_arrived_this_step := 0, traffic_jams_this_step := 0,
    carsSpawnedThisStep := 0, agent_id_counter := 2,
    sVals := fun _ => 0, sIdx := 0, gBits := fun _ => false, gIdx := 0 }

/-- The position of the ring car after n direct Car.step calls. -/
def ringPosAt (n : Nat) : Option Coord :=
  ((runCarSteps ringWorld 0 n).cars.find? (fun c => decide (c.uid = 0))).map
    (fun c => c.pos)

/-- The state tag of the ring car after n direct Car.step calls. -/
def ringStateAt (n : Nat) : Option String :=
  ((runCarSteps ringWorld 0 n).cars.find? (fun c => decide (c.uid = 0))).map
    (fun c => c.state)

/-- The stored path of the ring car after n direct Car.step calls. -/
def ringPathAt (n : Nat) : Option (List Coord) :=
  ((runCarSteps ringWorld 0 n).cars.find? (fun c => decide (c.uid = 0))).map
    (fun c => c.path)

/-- A 3 x 3 world with no roads and no destinations: every spawn cycle
places zero cars. -/
def barrenWorld : World :=
  { width := 3, height := 3,
    roads := fun _ => none,
    obstacles := fun _ => false,
    destList := [], lights := [], cars := [],
    spawnSteps := 10, steps := 0, running := true,
    totCarsSpawned := 0, totCarsArrived := 0, totStepsTaken := 0,
    totSemaforosFound := 0, embotellamientos := 0,
    cars_arrived_this_step := 0, traffic_jams_this_step := 0,
    carsSpawnedThisStep := 0, agent_id_counter := 0,
    sVals := fun _ => 0, sIdx := 0, gBits := fun _ => false, gIdx := 0 }

/-! The state of one traffic light across ticks (for the periodicity claim). -/

/-- The open/closed state of a Traffic_Light with cycle length L and initial
state s0 after its step has executed on every tick 1..t (during tick k the
mesa counter model.steps equals k). -/
def lightStateAfter (L : Nat) (s0 : Bool) (t : Nat) : Bool :=
  (List.range t).foldl
    (fun st i =>
      (stepLightOne (i + 1) { uid := 0, pos := (0, 0), state := st, timeToChange := L }).state)
    s0

/-- Written from the spec's words, for the refinement comparison: a
displacement reverses the flow axis when its component along the road
direction's axis points against the flow. -/
def reversesFlowAxis (d : Dir) (dx dy : Int) : Bool :=
  decide ((d = Dir.Right ∧ dx < 0) ∨ (d = Dir.Left ∧ dx > 0) ∨
    (d = Dir.Up ∧ dy < 0) ∨ (d = Dir.Down ∧ dy > 0))

/-- Written from the spec's words, for the refinement comparison: reject
exactly the displacements whose dominant component opposes the road
direction, and permit diagonal (equal-component, lane-change) displacements
whenever they do not reverse the flow axis. -/
def specMoveAllowed (d : Dir) (dx dy : Int) : Bool :=
  if dx.natAbs = dy.natAbs then ! reversesFlowAxis d dx dy
  else if dx.natAbs > dy.natAbs then
    ! decide ((d = Dir.Right ∧ dx < 0) ∨ (d = Dir.Left ∧ dx > 0))
  else ! decide ((d = Dir.Up ∧ dy < 0) ∨ (d = Dir.Down ∧ dy > 0))

/-- The conservation quantity of the arrival-conservation claim: cars
arrived plus live cars equals cars spawned. -/
abbrev conserved (w : World) : Prop :=
  w.totCarsArrived + w.cars.length = w.totCarsSpawned

/-- The five state tags Car.step ever stores (agent.py lines 363-372 and
every assignment to self.state in agent.py): there is no loop-detection
state and no visit-history structure in the Car class. -/
def carStates : List String := ["calculating", "moving", "waiting", "unjamming", "arrived"]

/-- Every live car carries one of the five real state tags. -/
def statesOkB (w : World) : Bool := w.cars.all (fun c => decide (c.state ∈ carStates))

/-- Propositional form of statesOkB. -/
def statesOk (w : World) : Prop := ∀ c ∈ w.cars, c.state ∈ carStates

/-- Position of the first occurrence (length of the list when absent);
private index helper for the visit-order argument. -/
def idxOf : List Coord → Coord → Nat
  | [], _ => 0
  | a :: l, x => if a = x then 0 else idxOf l x + 1

/-- The legality data the search loop maintains for every cameFrom edge: the
node k was inserted as a neighbor of its predecessor v through one of the
allowed moves of v's resolved direction, and k passed isValidRoad. -/
def okEdge (w : World) (start k v : Coord) : Prop :=
  isValidRoad w k = true ∧
  (v = start ∨ isValidRoad w v = true) ∧
  ∃ m ∈ getAllowedMoves (some ((getRoadDirection w v).getD Dir.Right)),
    k = (v.1 + m.1, v.2 + m.2.1)

/-- The loop invariant of aStarLoop: every cameFrom edge is legal, every
parent is already visited and strictly earlier in visit order than its
(visited) child, every open node other than the start has a cameFrom entry,
and every visited node other than the start has a cameFrom entry. -/
structure SearchInv (w : World) (start : Coord) (st : AStarState) : Prop where
  edges : ∀ k v, alookup st.cameFrom k = some v → okEdge w start k v
  parentVisited : ∀ k v, alookup st.cameFrom k = some v → v ∈ st.visited
  rank : ∀ k v, alookup st.cameFrom k = some v → k ∈ st.visited →
    idxOf st.visited v < idxOf st.visited k
  openOk : ∀ e ∈ st.openSet, e.2 = start ∨ (alookup st.cameFrom e.2).isSome = true
  visOk : ∀ p ∈ st.visited, p = start ∨ (alookup st.cameFrom p).isSome = true

theorem lightStateAfter_succ (L : Nat) (s0 : Bool) (t : Nat) :
    lightStateAfter L s0 (t + 1) =
      if (t + 1) % L = 0 then ! lightStateAfter L s0 t else lightStateAfter L s0 t := by
  unfold lightStateAfter
  rw [List.range_succ, List.foldl_append]
  simp only [List.foldl_cons, List.foldl_nil, stepLightOne]
  split <;> rfl

theorem lightState_formula (L : Nat) (s0 : Bool) (t : Nat) :
    lightStateAfter L s0 t = xor s0 (decide ((t / L) % 2 = 1)) := by
  induction t with
  | zero => simp [lightStateAfter]
  | succ t ih =>
    rw [lightStateAfter_succ, ih, Nat.succ_div]
    by_cases h : L ∣ t + 1
    · have hmod : (t + 1) % L = 0 := Nat.mod_eq_zero_of_dvd h
      rcases Nat.mod_two_eq_zero_or_one (t / L) with h2 | h2 <;>
        simp [hmod, h, Nat.add_mod, h2]
    · have hmod : (t + 1) % L ≠ 0 := fun hc => h (Nat.dvd_of_mod_eq_zero hc)
      simp [hmod, h]

/-- C3: a Traffic_Light with cycle length L (timeToChange) and initial state
s0, stepped on every tick, satisfies state-at-tick-t = s0 XOR (floor(t/L) is
odd), and it flips exactly on the ticks whose number is divisible by L
(Traffic_Light.step, agent.py lines 578-581: the light reads the model tick
counter, which mesa sets to the tick number before the agents run). -/
theorem light_periodicity (L : Nat) (s0 : Bool) (t u : Nat) (_hL : 0 < L) :
    lightStateAfter L s0 t = xor s0 (decide ((t / L) % 2 = 1)) ∧
    (lightStateAfter L s0 (u + 1) ≠ lightStateAfter L s0 u ↔ (u + 1) % L = 0) := by
  refine ⟨lightState_formula L s0 t, ?_⟩
  rw [lightStateAfter_succ]
  by_cases h : (u + 1) % L = 0 <;> simp [h]

/-- Witness for light_periodicity at L = 2, s0 = false, t = 5, u = 3. -/
theorem light_periodicity_witness :
    0 < 2 ∧
      (lightStateAfter 2 false 5 = xor false (decide ((5 / 2) % 2 = 1)) ∧
        (lightStateAfter 2 false (3 + 1) ≠ lightStateAfter 2 false 3 ↔ (3 + 1) % 2 = 0)) :=
  ⟨by decide, light_periodicity 2 false 5 3 (by decide)⟩

/-! Direction inference (getRoadDirection) lemmas. -/

theorem majorityDir_count_le (ds : List Dir) (d : Dir) :
    ds.count d ≤ ds.count (majorityDir ds) := by
  unfold majorityDir
  simp only [List.foldl_cons, List.foldl_nil]
  cases d <;> split_ifs <;> omega

theorem majorityDir_mem (ds : List Dir) (h : ds ≠ []) : majorityDir ds ∈ ds := by
  have h0 : ds.head h ∈ ds := List.head_mem h
  have h1 : 0 < ds.count (ds.head h) := List.count_pos_iff.mpr h0
  exact List.count_pos_iff.mp (Nat.lt_of_lt_of_le h1 (majorityDir_count_le ds (ds.head h)))

/-- C7: for every in-bounds coordinate, getRoadDirection returns exactly one
of the four cardinal directions and never a no-restriction value: a Road
cell yields that Road's direction; a Traffic_Light/Destination cell with
directed orthogonal neighbors yields a direction of maximal multiplicity
among those neighbors' Road directions (the majority, with the
implementation-fixed tie-break); and a cell with no directed neighbor
yields the fixed default Right (model.py lines 191-236). -/
theorem road_direction_total (w : World) (pos : Coord) (hin : inBounds w pos = true) :
    (∃ d : Dir, getRoadDirection w pos = some d) ∧
    (∀ r, w.roads pos = some r → getRoadDirection w pos = some r.direction) ∧
    (w.roads pos = none → ((lightAt w pos).isSome || hasDest w pos) = true →
      neighborRoadDirs w pos ≠ [] →
      getRoadDirection w pos = some (majorityDir (neighborRoadDirs w pos)) ∧
      majorityDir (neighborRoadDirs w pos) ∈ neighborRoadDirs w pos ∧
      ∀ d : Dir, (neighborRoadDirs w pos).count d ≤
        (neighborRoadDirs w pos).count (majorityDir (neighborRoadDirs w pos))) ∧
    (w.roads pos = none → neighborRoadDirs w pos = [] →
      getRoadDirection w pos = some Dir.Right) := by
  refine ⟨?_, ?_, ?_, ?_⟩
  · unfold getRoadDirection
    simp only [hin, Bool.not_eq_true', if_neg]
    rcases hr : w.roads pos with _ | r
    · by_cases hl : ((lightAt w pos).isSome || hasDest w pos) = true
      · simp only [hl, if_pos, if_true]
        by_cases he : (neighborRoadDirs w pos).isEmpty <;> simp [he]
      · simp [hl]
    · exact ⟨r.direction, rfl⟩
  · intro r hr
    unfold getRoadDirection
    simp [hin, hr]
  · intro hr hl hne
    have hne2 : ¬ (neighborRoadDirs w pos).isEmpty := by
      simpa [List.isEmpty_iff] using hne
    refine ⟨?_, majorityDir_mem _ hne, fun d => majorityDir_count_le _ d⟩
    unfold getRoadDirection
    simp [hin, hr, hl, hne2]
  · intro hr hne
    unfold getRoadDirection
    by_cases hl : ((lightAt w pos).isSome || hasDest w pos) = true <;>
      simp [hin, hr, hl, hne]

/-- Witness for road_direction_total: the light cell (2,0) of lightRowWorld,
whose east and west neighbors are Right roads. -/
theorem road_direction_total_witness :
    inBounds lightRowWorld (2, 0) = true ∧
      ((∃ d : Dir, getRoadDirection lightRowWorld (2, 0) = some d) ∧
        (∀ r, lightRowWorld.roads (2, 0) = some r →
          getRoadDirection lightRowWorld (2, 0) = some r.direction) ∧
        (lightRowWorld.roads (2, 0) = none →
          ((lightAt lightRowWorld (2, 0)).isSome || hasDest lightRowWorld (2, 0)) = true →
          neighborRoadDirs lightRowWorld (2, 0) ≠ [] →
          getRoadDirection lightRowWorld (2, 0) =
            some (majorityDir (neighborRoadDirs lightRowWorld (2, 0))) ∧
          majorityDir (neighborRoadDirs lightRowWorld (2, 0)) ∈
            neighborRoadDirs lightRowWorld (2, 0) ∧
          ∀ d : Dir, (neighborRoadDirs lightRowWorld (2, 0)).count d ≤
            (neighborRoadDirs lightRowWorld (2, 0)).count
              (majorityDir (neighborRoadDirs lightRowWorld (2, 0)))) ∧
        (lightRowWorld.roads (2, 0) = none → neighborRoadDirs lightRowWorld (2, 0) = [] →
          getRoadDirection lightRowWorld (2, 0) = some Dir.Right)) :=
  ⟨by decide, road_direction_total lightRowWorld (2, 0) (by decide)⟩

/-! Move legality (isMoveAllowedByRoad) against the spec's wording. -/

/-- C6: when the road direction resolved at the source cell is d,
isMoveAllowedByRoad agrees with the spec's dominant-component /
flow-axis rule on every unit-or-diagonal displacement; and in particular,
for a source cell resolving to Right, a move is allowed exactly when its
x-displacement is not negative (model.py lines 238-271). -/
theorem move_allowed_spec (w : World) (currentPos nextPos : Coord) (d : Dir)
    (hd : getRoadDirection w currentPos = some d) :
    (d = Dir.Right →
      (isMoveAllowedByRoad w currentPos nextPos = true ↔ 0 ≤ nextPos.1 - currentPos.1)) ∧
    ((nextPos.1 - currentPos.1).natAbs ≤ 1 → (nextPos.2 - currentPos.2).natAbs ≤ 1 →
      isMoveAllowedByRoad w currentPos nextPos =
        specMoveAllowed d (nextPos.1 - currentPos.1) (nextPos.2 - currentPos.2)) := by
  unfold isMoveAllowedByRoad
  rw [hd]
  constructor
  · rintro rfl
    simp [ge_iff_le]
  · intro hx hy
    have hxa : nextPos.1 - currentPos.1 = -1 ∨ nextPos.1 - currentPos.1 = 0 ∨
        nextPos.1 - currentPos.1 = 1 := by omega
    have hyb : nextPos.2 - currentPos.2 = -1 ∨ nextPos.2 - currentPos.2 = 0 ∨
        nextPos.2 - currentPos.2 = 1 := by omega
    rcases hxa with h1 | h1 | h1 <;> rcases hyb with h2 | h2 | h2 <;>
      rw [h1, h2] <;> cases d <;> decide

/-- Witness for move_allowed_spec: the Right road cell (0,0) of pathWorld
and the diagonal displacement to (1,1). -/
theorem move_allowed_spec_witness :
    getRoadDirection pathWorld (0, 0) = some Dir.Right ∧
      ((Dir.Right = Dir.Right →
        (isMoveAllowedByRoad pathWorld (0, 0) (1, 1) = true ↔
          0 ≤ (1 : Int) - (0 : Int))) ∧
      (((1 : Int) - (0 : Int)).natAbs ≤ 1 → (((1 : Int) - (0 : Int))).natAbs ≤ 1 →
        isMoveAllowedByRoad pathWorld (0, 0) (1, 1) =
          specMoveAllowed Dir.Right ((1 : Int) - (0 : Int)) ((1 : Int) - (0 : Int)))) :=
  ⟨by decide, move_allowed_spec pathWorld (0, 0) (1, 1) Dir.Right (by decide)⟩

/-! Destination cells in Car.canMoveTo. -/

/-- C10: for every in-bounds target cell containing a Destination and no
Obstacle, Car.canMoveTo returns True (with no totSemaforosFound increment)
unconditionally, before the red-light, other-car, heading-sign and
road-direction checks are ever reached (agent.py lines 174-186): red lights,
cars already in the cell and the movement direction are not consulted, so
any number of cars may enter a destination cell simultaneously. -/
theorem canMoveTo_destination (w : World) (car : CarA) (nextPos : Coord)
    (considerDirection : Option Dir) (hin : inBounds w nextPos = true)
    (hdest : hasDest w nextPos = true) (hobs : w.obstacles nextPos = false) :
    canMoveTo w car nextPos considerDirection = (true, 0) := by
  unfold canMoveTo
  simp [hin, hdest, hobs]

/-- Witness for canMoveTo_destination: the destination cell (3,1) of
ringWorld is already occupied by parkedCar, and the querying car ringCar
approaches with an arbitrary facing; canMoveTo still answers true. -/
theorem canMoveTo_destination_witness :
    inBounds ringWorld (3, 1) = true ∧ hasDest ringWorld (3, 1) = true ∧
      ringWorld.obstacles (3, 1) = false ∧
      canMoveTo ringWorld ringCar (3, 1) (some Dir.Left) = (true, 0) :=
  ⟨by decide, by decide, by decide,
    canMoveTo_destination ringWorld ringCar (3, 1) (some Dir.Left)
      (by decide) (by decide) (by decide)⟩

/-! Spawn-failure termination. -/

theorem spawnOneCorner_steps (w : World) (cs : List Coord) :
    (spawnOneCorner w cs).steps = w.steps := by
  unfold spawnOneCorner
  dsimp only
  split <;> rfl

theorem spawnCarsW_steps (w : World) : (spawnCarsW w).steps = w.steps := by
  unfold spawnCarsW cornerCoordLists
  simp only [List.foldl_cons, List.foldl_nil, spawnOneCorner_steps]

theorem spawnPhase_steps (w : World) : (spawnPhase w).steps = w.steps := by
  unfold spawnPhase
  rw [spawnCarsW_steps]

theorem schedStep_not_running (w : World) (h : w.running = false) : schedStep w = w := by
  unfold schedStep
  simp [h]

theorem runSched_not_running (w : World) (h : w.running = false) :
    ∀ k, runSched w k = w := by
  intro k
  induction k generalizing w with
  | zero => rfl
  | succ k ih =>
    show runSched (schedStep w) k = w
    rw [schedStep_not_running w h, ih w h]

/-- C9: if a spawn cycle executes (the tick is spawn-due) and places zero
cars across all four corners, CityModel.step sets running := false and
returns before any agent executes (model.py lines 508-519); the flag is
never set back, so a scheduler that honors model.running (mesa's runners;
spec sections 4.6-4.7: no further ticks are scheduled after the
termination signal) performs no further agent execution.  The run ends by
ordinary control flow, not by an exception. -/
theorem spawn_failure_terminates (w : World) (hrun : w.running = true)
    (hdue : (tickReset w).steps = 1 ∨ (tickReset w).steps % (tickReset w).spawnSteps = 0)
    (hzero : (spawnPhase (tickReset w)).carsSpawnedThisStep = 0) :
    schedStep w = { spawnPhase (tickReset w) with running := false } ∧
      (schedStep w).running = false ∧
      ∀ k, runSched (schedStep w) k = schedStep w := by
  have hsteps : (spawnPhase (tickReset w)).steps = w.steps + 1 := by
    rw [spawnPhase_steps]; rfl
  have hstep : schedStep w = { spawnPhase (tickReset w) with running := false } := by
    unfold schedStep modelStep
    rw [if_pos (by simp [hrun]), if_pos hdue, if_pos]
    exact ⟨by omega, by omega⟩
  refine ⟨hstep, by rw [hstep], fun k => runSched_not_running _ (by rw [hstep]) k⟩

/-- Witness for spawn_failure_terminates: barrenWorld has no roads and no
destinations, so its first spawn cycle places nothing. -/
theorem spawn_failure_terminates_witness :
    barrenWorld.running = true ∧
      ((tickReset barrenWorld).steps = 1 ∨
        (tickReset barrenWorld).steps % (tickReset barrenWorld).spawnSteps = 0) ∧
      (spawnPhase (tickReset barrenWorld)).carsSpawnedThisStep = 0 ∧
      (schedStep barrenWorld = { spawnPhase (tickReset barrenWorld) with running := false } ∧
        (schedStep barrenWorld).running = false ∧
        ∀ k, runSched (schedStep barrenWorld) k = schedStep barrenWorld) :=
  ⟨by decide, by decide, by decide,
    spawn_failure_terminates barrenWorld (by decide) (by decide) (by decide)⟩

/-! Seed determinism against the unseeded global random module. -/

/-- C1 evidence: lightRowWorld run for 2 ticks with the SAME seeded stream
(sVals) in both runs, differing only in the global random module's draws
consumed by Car.step (agent.py line 434, random.random() < 0.1, which the
model's seed does not control: CityModel seeds only self.random).  The two
runs end with different totSemaforosFound and different Car states, so the
run is not a function of the seed and tick count alone: on tick 2 the
spawned car is blocked at the red light; the run whose draw falls below 0.1
recalculates its route and stays "moving", while the other fails its lane
change (counting the red light a second time) and falls to "waiting". -/
theorem run_depends_on_global_random :
    (runSched { lightRowWorld with gBits := fun _ => true } 2).totSemaforosFound = 1 ∧
    (runSched { lightRowWorld with gBits := fun _ => false } 2).totSemaforosFound = 2 ∧
    ((runSched { lightRowWorld with gBits := fun _ => true } 2).cars.find?
      (fun c => decide (c.uid = 0))).map (fun c => c.state) = some "moving" ∧
    ((runSched { lightRowWorld with gBits := fun _ => false } 2).cars.find?
      (fun c => decide (c.uid = 0))).map (fun c => c.state) = some "waiting" := by
  exact ⟨by decide, by decide, by decide, by decide⟩

/-! Arrival conservation. -/

theorem length_eraseP_of_mem {α : Type} (p : α → Bool) :
    ∀ (l : List α), (∃ a ∈ l, p a = true) → (l.eraseP p).length + 1 = l.length := by
  intro l h
  induction l with
  | nil =>
    rcases h with ⟨a, ha, _⟩
    cases ha
  | cons b l ih =>
    by_cases hb : p b = true
    · simp [List.eraseP_cons, hb]
    · rcases h with ⟨a, ha, hpa⟩
      rcases List.mem_cons.mp ha with rfl | ha2
      · exact absurd hpa hb
      · have := ih ⟨a, ha2, hpa⟩
        simp only [List.eraseP_cons, hb, cond_false, List.length_cons]
        omega

theorem updateDirection_uid (car : CarA) (p : Coord) (d : Option Dir) :
    (updateDirection car p d).uid = car.uid := by
  unfold updateDirection
  rcases d with _ | d
  · dsimp only
    split_ifs <;> rfl
  · rfl

theorem calculatePathCar_uid (w : World) (car : CarA) :
    (calculatePathCar w car).uid = car.uid := by
  unfold calculatePathCar
  dsimp only
  split_ifs <;> rfl

theorem conserved_putCar (w : World) (car : CarA) (h : conserved w) :
    conserved (putCar w car) := by
  unfold conserved putCar
  dsimp only
  rw [List.length_map]
  exact h

theorem conserved_arriveCar (w : World) (car : CarA) (h : conserved w)
    (hc : ∃ c ∈ w.cars, c.uid = car.uid) : conserved (arriveCar w car) := by
  have hlen := length_eraseP_of_mem (fun c => decide (c.uid = car.uid)) w.cars
    (by rcases hc with ⟨c, hm, hu⟩; exact ⟨c, hm, by simp [hu]⟩)
  have h2 : w.totCarsArrived + w.cars.length = w.totCarsSpawned := h
  unfold conserved arriveCar
  dsimp only
  omega

theorem movingBranch_conserved (w : World) (car : CarA) (h : conserved w)
    (hmem : ∃ c ∈ w.cars, c.uid = car.uid) : conserved (movingBranch w car) := by
  unfold movingBranch
  repeat'
    first
      | split
      | (dsimp only)
  all_goals
    first
      | exact h
      | exact conserved_putCar _ _ h
      | (apply conserved_arriveCar _ _ h
         simpa [updateDirection_uid, calculatePathCar_uid] using hmem)

theorem waitingBranch_conserved (w : World) (car : CarA) (h : conserved w)
    (hmem : ∃ c ∈ w.cars, c.uid = car.uid) : conserved (waitingBranch w car) := by
  unfold waitingBranch waitingTail
  repeat'
    first
      | split
      | (dsimp only)
  all_goals
    first
      | exact h
      | exact conserved_putCar _ _ h
      | (apply conserved_arriveCar _ _ h
         simpa [updateDirection_uid, calculatePathCar_uid] using hmem)

theorem unjammingBranch_conserved (w : World) (car : CarA) (h : conserved w) :
    conserved (unjammingBranch w car) := by
  unfold unjammingBranch unjammingTail
  repeat'
    first
      | split
      | (dsimp only)
  all_goals
    first
      | exact h
      | exact conserved_putCar _ _ h

theorem stepCarBody_conserved (w : World) (car : CarA) (h : conserved w)
    (hmem : ∃ c ∈ w.cars, c.uid = car.uid) : conserved (stepCarBody w car) := by
  unfold stepCarBody
  split_ifs
  · exact h
  · exact conserved_arriveCar _ _ h hmem
  · exact conserved_putCar _ _ h
  · exact movingBranch_conserved w car h hmem
  · exact waitingBranch_conserved w car h hmem
  · exact unjammingBranch_conserved w car h
  · exact h

theorem stepCar_conserved (w : World) (uid : Nat) (h : conserved w) :
    conserved (stepCar w uid) := by
  unfold stepCar
  cases hfind : w.cars.find? (fun c => decide (c.uid = uid)) with
  | none => exact h
  | some car =>
    exact stepCarBody_conserved w car h ⟨car, List.mem_of_find?_eq_some hfind, rfl⟩

theorem stepLight_conserved (w : World) (uid : Nat) (h : conserved w) :
    conserved (stepLight w uid) := by
  unfold conserved stepLight
  exact h

theorem foldAgents_conserved (order : List Nat) :
    ∀ (w : World), conserved w →
      conserved (order.foldl (fun wa uid =>
        if wa.lights.any (fun l => decide (l.uid = uid)) then stepLight wa uid
        else stepCar wa uid) w) := by
  induction order with
  | nil => exact fun w h => h
  | cons u rest ih =>
    intro w h
    simp only [List.foldl_cons]
    apply ih
    split_ifs
    · exact stepLight_conserved w u h
    · exact stepCar_conserved w u h

theorem agentPhase_conserved (w : World) (h : conserved w) : conserved (agentPhase w) := by
  unfold agentPhase
  dsimp only
  exact foldAgents_conserved _ _ h

theorem spawnOneCorner_conserved (w : World) (cs : List Coord) (h : conserved w) :
    conserved (spawnOneCorner w cs) := by
  have h2 : w.totCarsArrived + w.cars.length = w.totCarsSpawned := h
  unfold conserved spawnOneCorner
  dsimp only
  split
  · simp only [List.length_map, List.length_append, List.length_cons, List.length_nil]
    omega
  · exact h2

theorem spawnCarsW_conserved (w : World) (h : conserved w) : conserved (spawnCarsW w) := by
  unfold spawnCarsW cornerCoordLists
  simp only [List.foldl_cons, List.foldl_nil]
  exact spawnOneCorner_conserved _ _ (spawnOneCorner_conserved _ _
    (spawnOneCorner_conserved _ _ (spawnOneCorner_conserved _ _ h)))

theorem modelStep_conserved (w : World) (h : conserved w) : conserved (modelStep w) := by
  unfold modelStep
  dsimp only
  split_ifs
  · exact spawnCarsW_conserved _ h
  · exact agentPhase_conserved _ (spawnCarsW_conserved _ h)
  · exact agentPhase_conserved _ h

theorem schedStep_conserved (w : World) (h : conserved w) : conserved (schedStep w) := by
  unfold schedStep
  split_ifs
  · exact modelStep_conserved w h
  · exact h

theorem runSched_conserved (w : World) (h : conserved w) :
    ∀ n, conserved (runSched w n) := by
  intro n
  induction n generalizing w with
  | zero => exact h
  | succ n ih => exact ih (schedStep w) (schedStep_conserved w h)

/-- C4: at every tick boundary of any run whose start state satisfies the
conservation equation (as the initial model does: zero arrived, zero live,
zero spawned), totCarsArrived plus the number of live Car agents equals
totCarsSpawned: spawnCars increments totCarsSpawned exactly once per Car it
creates (model.py lines 487-493), and each Car increments totCarsArrived
exactly once, at the same moment it is removed from the grid and the agent
set (agent.py lines 377-385, 420-427, 485-491); no other operation touches
either counter or the live-car set. -/
theorem arrival_conservation (w : World) (n : Nat) (h : conserved w) :
    (runSched w n).totCarsArrived + (runSched w n).cars.length =
      (runSched w n).totCarsSpawned :=
  runSched_conserved w h n

/-- Witness for arrival_conservation: lightRowWorld (which spawns a car on
tick 1) run for 3 ticks. -/
theorem arrival_conservation_witness :
    conserved lightRowWorld ∧
      ((runSched lightRowWorld 3).totCarsArrived + (runSched lightRowWorld 3).cars.length =
        (runSched lightRowWorld 3).totCarsSpawned) :=
  ⟨by decide, arrival_conservation lightRowWorld 3 (by decide)⟩

/-! The set of car state tags. -/

theorem statesOkB_iff (w : World) : statesOkB w = true ↔ statesOk w := by
  unfold statesOkB statesOk
  rw [List.all_eq_true]
  simp

theorem updateDirection_state (car : CarA) (p : Coord) (d : Option Dir) :
    (updateDirection car p d).state = car.state := by
  unfold updateDirection
  rcases d with _ | d
  · dsimp only
    split_ifs <;> rfl
  · rfl

theorem calculatePathCar_state (w : World) (car : CarA) :
    (calculatePathCar w car).state = "moving" ∨ (calculatePathCar w car).state = "waiting" := by
  unfold calculatePathCar
  dsimp only
  split_ifs <;> simp

theorem calculatePathCar_state_mem (w : World) (car : CarA) :
    (calculatePathCar w car).state ∈ carStates := by
  rcases calculatePathCar_state w car with hs | hs <;> simp [hs, carStates]

theorem statesOk_mapReplace (cars : List CarA) (car : CarA)
    (h : ∀ c ∈ cars, c.state ∈ carStates) (hc : car.state ∈ carStates) :
    ∀ c2 ∈ cars.map (fun c => if c.uid = car.uid then car else c), c2.state ∈ carStates := by
  intro c2 hc2
  rcases List.mem_map.mp hc2 with ⟨c0, hc0, heq⟩
  by_cases he : c0.uid = car.uid
  · rw [if_pos he] at heq
    exact heq ▸ hc
  · rw [if_neg he] at heq
    exact heq ▸ h c0 hc0

theorem statesOk_putCar (w : World) (car : CarA) (h : statesOk w)
    (hc : car.state ∈ carStates) : statesOk (putCar w car) := by
  intro c hcm
  unfold putCar at hcm
  dsimp only at hcm
  exact statesOk_mapReplace w.cars car h hc c hcm

theorem statesOk_arriveCar (w : World) (car : CarA) (h : statesOk w) :
    statesOk (arriveCar w car) := by
  intro c hc
  unfold arriveCar at hc
  dsimp only at hc
  exact h c ((List.eraseP_sublist w.cars).mem hc)

theorem statesOk_calculatePathCar (w w2 : World) (car : CarA) (h : statesOk w) :
    statesOk (putCar w (calculatePathCar w2 car)) := by
  apply statesOk_putCar _ _ h
  rcases calculatePathCar_state w2 car with hs | hs <;> simp [hs, carStates]

theorem movingBranch_statesOk (w : World) (car : CarA) (h : statesOk w)
    (hcar : car.state ∈ carStates) : statesOk (movingBranch w car) := by
  unfold movingBranch
  repeat'
    first
      | split
      | (dsimp only)
  all_goals
    first
      | exact h
      | exact statesOk_arriveCar _ _ h
      | exact statesOk_calculatePathCar _ _ _ h
      | (apply statesOk_putCar _ _ h
         first
           | (simp only [updateDirection_state]
              exact hcar)
           | exact hcar
           | exact calculatePathCar_state_mem _ _
           | (simp [updateDirection_state, carStates]))

theorem waitingBranch_statesOk (w : World) (car : CarA) (h : statesOk w)
    (hcar : car.state ∈ carStates) : statesOk (waitingBranch w car) := by
  unfold waitingBranch waitingTail
  repeat'
    first
      | split
      | (dsimp only)
  all_goals
    first
      | exact h
      | exact statesOk_arriveCar _ _ h
      | (apply statesOk_putCar _ _ h
         first
           | (simp only [updateDirection_state]
              exact hcar)
           | exact hcar
           | (simp [updateDirection_state, carStates]))

theorem unjammingBranch_statesOk (w : World) (car : CarA) (h : statesOk w)
    (hcar : car.state ∈ carStates) : statesOk (unjammingBranch w car) := by
  unfold unjammingBranch unjammingTail
  repeat'
    first
      | split
      | (dsimp only)
  all_goals
    first
      | exact h
      | exact statesOk_arriveCar _ _ h
      | (apply statesOk_putCar _ _ h
         first
           | (simp only [updateDirection_state]
              exact hcar)
           | exact hcar
           | (simp [updateDirection_state, carStates]))

theorem stepCarBody_statesOk (w : World) (car : CarA) (h : statesOk w)
    (hcar : car.state ∈ carStates) : statesOk (stepCarBody w car) := by
  unfold stepCarBody
  split_ifs
  · exact h
  · exact statesOk_arriveCar _ _ h
  · exact statesOk_calculatePathCar _ _ _ h
  · exact movingBranch_statesOk w car h hcar
  · exact waitingBranch_statesOk w car h hcar
  · exact unjammingBranch_statesOk w car h hcar
  · exact h

theorem stepCar_statesOk (w : World) (uid : Nat) (h : statesOk w) :
    statesOk (stepCar w uid) := by
  unfold stepCar
  cases hfind : w.cars.find? (fun c => decide (c.uid = uid)) with
  | none => exact h
  | some car =>
    exact stepCarBody_statesOk w car h (h car (List.mem_of_find?_eq_some hfind))

theorem stepLight_statesOk (w : World) (uid : Nat) (h : statesOk w) :
    statesOk (stepLight w uid) := h

theorem foldAgents_statesOk (order : List Nat) :
    ∀ (w : World), statesOk w →
      statesOk (order.foldl (fun wa uid =>
        if wa.lights.any (fun l => decide (l.uid = uid)) then stepLight wa uid
        else stepCar wa uid) w) := by
  induction order with
  | nil => exact fun w h => h
  | cons u rest ih =>
    intro w h
    simp only [List.foldl_cons]
    apply ih
    split_ifs
    · exact stepLight_statesOk w u h
    · exact stepCar_statesOk w u h

theorem agentPhase_statesOk (w : World) (h : statesOk w) : statesOk (agentPhase w) := by
  unfold agentPhase
  dsimp only
  exact foldAgents_statesOk _ _ h

theorem spawnOneCorner_statesOk (w : World) (cs : List Coord) (h : statesOk w) :
    statesOk (spawnOneCorner w cs) := by
  unfold spawnOneCorner
  dsimp only
  split
  · intro c hc
    dsimp only at hc
    refine statesOk_mapReplace _ _ ?_ ?_ c hc
    · intro c0 hc0
      rcases List.mem_append.mp hc0 with hc1 | hc1
      · exact h c0 hc1
      · rcases List.mem_singleton.mp hc1 with rfl
        simp [newCar, carStates]
    · exact calculatePathCar_state_mem _ _
  · exact h

theorem spawnCarsW_statesOk (w : World) (h : statesOk w) : statesOk (spawnCarsW w) := by
  unfold spawnCarsW cornerCoordLists
  simp only [List.foldl_cons, List.foldl_nil]
  exact spawnOneCorner_statesOk _ _ (spawnOneCorner_statesOk _ _
    (spawnOneCorner_statesOk _ _ (spawnOneCorner_statesOk _ _ h)))

/-- C5 amended: the Car state machine has no InLoop state and no
visited-coordinate history: the only state tags a model tick can produce
are "calculating", "moving", "waiting", "unjamming" and "arrived" (the five
states of agent.py); coordinate revisits trigger no transition of their own
(see the counterexample theorem), and the only route recalculations are the
10 percent random one and the unjamming escalation with avoidCars=False. -/
theorem car_states_closed (w : World) (h : statesOkB w = true) :
    statesOkB (modelStep w) = true := by
  rw [statesOkB_iff] at h ⊢
  unfold modelStep
  dsimp only
  split_ifs
  · exact spawnCarsW_statesOk _ h
  · exact agentPhase_statesOk _ (spawnCarsW_statesOk _ h)
  · exact agentPhase_statesOk _ h

/-- Witness for car_states_closed at ringWorld. -/
theorem car_states_closed_witness :
    statesOkB ringWorld = true ∧ statesOkB (modelStep ringWorld) = true :=
  ⟨by decide, car_states_closed ringWorld (by decide)⟩

/-- C5 counterexample: in ringWorld the traced car ends ticks 2, 3 and 4 on
the same coordinate (1,0) — that coordinate therefore occurs at least 3
times among its last 20 visited coordinates — yet nothing resembling the
claimed InLoop behavior happens: at the end of ticks 3 to 6 the car's state
is "waiting" or "unjamming" (never a loop state, and not back to moving),
its stored path is still exactly the blocked path computed on tick 1 (no
history-penalty reroute has been run), and the car still sits on the
repeated coordinate at tick 20. -/
theorem no_inloop_counterexample :
    (ringPosAt 2 = some (1, 0) ∧ ringPosAt 3 = some (1, 0) ∧ ringPosAt 4 = some (1, 0)) ∧
    ringStateAt 3 = some "waiting" ∧ ringStateAt 4 = some "unjamming" ∧
    ringStateAt 5 = some "unjamming" ∧ ringStateAt 6 = some "unjamming" ∧
    ringPathAt 6 = ringPathAt 1 ∧ ringPathAt 1 = some [(1, 0), (2, 1), (3, 1)] ∧
    ringPosAt 20 = some (1, 0) :=
  ⟨⟨by decide, by decide, by decide⟩, by decide, by decide, by decide, by decide,
    by decide, by decide, by decide⟩

/-! A* search invariants: every returned path is legal, the iteration count
is bounded, and path reconstruction always terminates. -/

theorem idxOf_lt_length (l : List Coord) (x : Coord) (h : x ∈ l) :
    idxOf l x < l.length := by
  induction l with
  | nil => cases h
  | cons a l ih =>
    unfold idxOf
    by_cases ha : a = x
    · simp [ha]
    · rcases List.mem_cons.mp h with rfl | h2
      · exact absurd rfl ha
      · simpa [ha] using ih h2

theorem idxOf_append_of_mem (l r : List Coord) (x : Coord) (h : x ∈ l) :
    idxOf (l ++ r) x = idxOf l x := by
  induction l with
  | nil => cases h
  | cons a l ih =>
    unfold idxOf
    by_cases ha : a = x
    · simp [ha]
    · rcases List.mem_cons.mp h with rfl | h2
      · exact absurd rfl ha
      · simp [ha, ih h2]

theorem idxOf_append_self (l : List Coord) (x : Coord) (h : x ∉ l) :
    idxOf (l ++ [x]) x = l.length := by
  induction l with
  | nil => simp [idxOf]
  | cons a l ih =>
    unfold idxOf
    have ha : a ≠ x := fun hc => h (hc ▸ List.mem_cons_self a l)
    simp [ha, ih (fun hc => h (List.mem_cons_of_mem a hc))]

theorem alookup_nil {β : Type} (k : Coord) : alookup ([] : List (Coord × β)) k = none := rfl

theorem alookup_cons {β : Type} (k0 : Coord) (v0 : β) (l : List (Coord × β)) (k : Coord) :
    alookup ((k0, v0) :: l) k = if k0 = k then some v0 else alookup l k := by
  unfold alookup
  by_cases h : k0 = k
  · rw [List.find?_cons_of_pos _ (by simpa using h)]
    simp [h]
  · rw [List.find?_cons_of_neg _ (by simpa using h)]
    simp [h]

theorem alookup_cons_isSome {β : Type} (k0 : Coord) (v0 : β) (l : List (Coord × β))
    (k : Coord) (h : (alookup l k).isSome = true) :
    (alookup ((k0, v0) :: l) k).isSome = true := by
  rw [alookup_cons]
  by_cases he : k0 = k <;> simp [he, h]

theorem popMinFirst_perm (e : Cost × Coord) (l : List (Cost × Coord)) :
    ((popMinFirst e l).1 :: (popMinFirst e l).2).Perm (e :: l) := by
  induction l generalizing e with
  | nil => simp [popMinFirst]
  | cons f rest ih =>
    rw [popMinFirst]
    split_ifs with h
    · exact List.Perm.trans
        (List.Perm.swap e (popMinFirst f rest).1 (popMinFirst f rest).2)
        (List.Perm.cons e (ih f))
    · exact List.Perm.refl _

theorem popMin_mem (l : List (Cost × Coord)) (cur : Cost × Coord)
    (rest : List (Cost × Coord)) (h : popMin l = some (cur, rest)) :
    cur ∈ l ∧ ∀ x ∈ rest, x ∈ l := by
  cases l with
  | nil => cases h
  | cons e tail =>
    have hp := popMinFirst_perm e tail
    have heq : popMinFirst e tail = (cur, rest) := by
      simpa [popMin] using h
    rw [heq] at hp
    exact ⟨hp.mem_iff.mp (List.mem_cons_self cur rest),
      fun x hx => hp.mem_iff.mp (List.mem_cons_of_mem cur hx)⟩

theorem okEdge_step (w : World) (start k v : Coord) (h : okEdge w start k v) :
    adjacentStep v k = true ∧ isValidRoad w k = true ∧
      isMoveAllowedByRoad w v k = true := by
  obtain ⟨hk, _, m, hm, rfl⟩ := h
  refine ⟨?_, hk, ?_⟩
  · rcases hd : getRoadDirection w v with _ | d <;> rw [hd] at hm
    · simp only [Option.getD_none] at hm
      fin_cases hm <;> simp [adjacentStep, Prod.ext_iff]
    · simp only [Option.getD_some] at hm
      cases d <;> fin_cases hm <;> simp [adjacentStep, Prod.ext_iff]
  · unfold isMoveAllowedByRoad
    rcases hd : getRoadDirection w v with _ | d <;> rw [hd] at hm
    simp only [Option.getD_some] at hm
    cases d <;> fin_cases hm <;> simp

theorem SearchInv_popStep (w : World) (start : Coord) (st : AStarState)
    (cur : Cost × Coord) (rest : List (Cost × Coord))
    (hInv : SearchInv w start st) (hpop : popMin st.openSet = some (cur, rest)) :
    SearchInv w start { st with
      openSet := rest,
      visited := if cur.2 ∈ st.visited then st.visited else st.visited ++ [cur.2] } ∧
    cur.2 ∈ (if cur.2 ∈ st.visited then st.visited else st.visited ++ [cur.2]) := by
  obtain ⟨hcur, hrest⟩ := popMin_mem _ _ _ hpop
  by_cases hv : cur.2 ∈ st.visited
  · rw [if_pos hv]
    exact ⟨⟨hInv.edges, hInv.parentVisited, hInv.rank,
      fun e he => hInv.openOk e (hrest e he), hInv.visOk⟩, hv⟩
  · rw [if_neg hv]
    refine ⟨⟨hInv.edges, ?_, ?_, fun e he => hInv.openOk e (hrest e he), ?_⟩,
      List.mem_append_right _ (List.mem_singleton.mpr rfl)⟩
    · intro k v hkv
      exact List.mem_append_left _ (hInv.parentVisited k v hkv)
    · intro k v hkv hk2
      have hvmem : v ∈ st.visited := hInv.parentVisited k v hkv
      rcases List.mem_append.mp hk2 with hk | hk
      · rw [idxOf_append_of_mem _ _ _ hvmem, idxOf_append_of_mem _ _ _ hk]
        exact hInv.rank k v hkv hk
      · rcases List.mem_singleton.mp hk with rfl
        rw [idxOf_append_of_mem _ _ _ hvmem, idxOf_append_self _ _ hv]
        exact idxOf_lt_length _ _ hvmem
    · intro p hp
      rcases List.mem_append.mp hp with hp1 | hp1
      · exact hInv.visOk p hp1
      · rcases List.mem_singleton.mp hp1 with rfl
        exact hInv.openOk cur hcur

theorem expandNeighbor_one (w : World) (start endP : Coord) (avoid : Bool)
    (cur : Coord) (gCur : Cost) (m : Int × Int × Cost)
    (hm : m ∈ getAllowedMoves (some ((getRoadDirection w cur).getD Dir.Right)))
    (hcur_ok : cur = start ∨ isValidRoad w cur = true)
    (st : AStarState) (hInv : SearchInv w start st) (hcurv : cur ∈ st.visited) :
    SearchInv w start (expandNeighbor w endP avoid cur gCur st m) ∧
      (expandNeighbor w endP avoid cur gCur st m).visited = st.visited := by
  unfold expandNeighbor
  dsimp only
  split_ifs with hskip hbetter
  · exact ⟨hInv, rfl⟩
  · push_neg at hskip
    obtain ⟨hnv, hval⟩ := hskip
    refine ⟨⟨?_, ?_, ?_, ?_, ?_⟩, rfl⟩
    · intro k v hkv
      rw [alookup_cons] at hkv
      by_cases hk : ((cur.1 + m.1, cur.2 + m.2.1) : Coord) = k
      · rw [if_pos hk] at hkv
        have hv2 : cur = v := by injection hkv
        subst hv2
        subst hk
        exact ⟨hval, hcur_ok, m, hm, rfl⟩
      · rw [if_neg hk] at hkv
        exact hInv.edges k v hkv
    · intro k v hkv
      rw [alookup_cons] at hkv
      by_cases hk : ((cur.1 + m.1, cur.2 + m.2.1) : Coord) = k
      · rw [if_pos hk] at hkv
        have hv2 : cur = v := by injection hkv
        exact hv2 ▸ hcurv
      · rw [if_neg hk] at hkv
        exact hInv.parentVisited k v hkv
    · intro k v hkv hk2
      by_cases hk : ((cur.1 + m.1, cur.2 + m.2.1) : Coord) = k
      · rw [← hk] at hk2
        exact absurd hk2 hnv
      · rw [alookup_cons, if_neg hk] at hkv
        exact hInv.rank k v hkv hk2
    · intro e he
      rcases List.mem_append.mp he with he1 | he1
      · rcases hInv.openOk e he1 with h1 | h1
        · exact Or.inl h1
        · exact Or.inr (alookup_cons_isSome _ _ _ _ h1)
      · rcases List.mem_singleton.mp he1 with rfl
        right
        simp [alookup_cons]
    · intro p hp
      rcases hInv.visOk p hp with h1 | h1
      · exact Or.inl h1
      · exact Or.inr (alookup_cons_isSome _ _ _ _ h1)
  · exact ⟨hInv, rfl⟩

theorem expandFold_inv (w : World) (start endP : Coord) (avoid : Bool)
    (cur : Coord) (gCur : Cost)
    (hcur_ok : cur = start ∨ isValidRoad w cur = true) :
    ∀ (moves : List (Int × Int × Cost)),
      (∀ m ∈ moves, m ∈ getAllowedMoves (some ((getRoadDirection w cur).getD Dir.Right))) →
      ∀ (st : AStarState), SearchInv w start st → cur ∈ st.visited →
        SearchInv w start (moves.foldl (expandNeighbor w endP avoid cur gCur) st) := by
  intro moves
  induction moves with
  | nil => exact fun _ st h _ => h
  | cons m ms ih =>
    intro hms st hInv hcurv
    simp only [List.foldl_cons]
    obtain ⟨h1, h2⟩ := expandNeighbor_one w start endP avoid cur gCur m
      (hms m (List.mem_cons_self m ms)) hcur_ok st hInv hcurv
    exact ih (fun m2 hm2 => hms m2 (List.mem_cons_of_mem m hm2)) _ h1
      (by rw [h2]; exact hcurv)

theorem reconstruct_ok (w : World) (start : Coord) (st : AStarState)
    (hInv : SearchInv w start st) :
    ∀ (n : Nat) (cur : Coord) (acc : List Coord),
      cur ∈ st.visited → idxOf st.visited cur < n → acc ≠ [] →
      pathLegal w cur acc = true →
      ∃ res, reconstructPath st.cameFrom n cur acc = some res ∧
        pathLegal w start res = true ∧ res.getLast? = acc.getLast? := by
  intro n
  induction n with
  | zero =>
    intro cur acc _ hlt
    omega
  | succ n ih =>
    intro cur acc hmem hlt hne hleg
    rw [reconstructPath]
    rcases hlook : alookup st.cameFrom cur with _ | prev
    · have hcs : cur = start := by
        rcases hInv.visOk cur hmem with h | h
        · exact h
        · rw [hlook] at h
          cases h
      subst hcs
      exact ⟨acc, rfl, hleg, rfl⟩
    · have hpv : prev ∈ st.visited := hInv.parentVisited cur prev hlook
      have hrank : idxOf st.visited prev < idxOf st.visited cur :=
        hInv.rank cur prev hlook hmem
      have hstep := okEdge_step w start cur prev (hInv.edges cur prev hlook)
      have hleg2 : pathLegal w prev (cur :: acc) = true := by
        simp only [pathLegal, hstep.1, hstep.2.1, hstep.2.2, hleg]
        rfl
      obtain ⟨res, hres, hresl, hlast⟩ := ih prev (cur :: acc) hpv (by omega)
        (by simp) hleg2
      refine ⟨res, hres, hresl, ?_⟩
      rw [hlast]
      cases acc with
      | nil => exact absurd rfl hne
      | cons a l => rw [List.getLast?_cons_cons]

theorem SearchInv_init (w : World) (s : Coord) :
    SearchInv w s
      { openSet := [((0 : Cost), s)], cameFrom := [], gScore := [(s, 0)], visited := [] } := by
  refine ⟨?_, ?_, ?_, ?_, ?_⟩
  · intro k v h
    simp [alookup] at h
  · intro k v h
    simp [alookup] at h
  · intro k v h
    simp [alookup] at h
  · intro e he
    rcases List.mem_singleton.mp he with rfl
    exact Or.inl rfl
  · intro p hp
    cases hp

theorem aStarLoop_spec (w : World) (start endP : Coord) (avoid : Bool) :
    ∀ (fuel : Nat) (st : AStarState) (iters : Nat), SearchInv w start st →
      ∃ l n, aStarLoop w endP avoid fuel st iters = (some l, n) ∧
        n ≤ iters + fuel ∧
        (l ≠ [] → pathLegal w start l = true ∧ l.getLast? = some endP) := by
  intro fuel
  induction fuel with
  | zero =>
    intro st iters _
    exact ⟨[], iters, rfl, Nat.le_refl _, fun h => absurd rfl h⟩
  | succ fuel ih =>
    intro st iters hInv
    rw [aStarLoop]
    rcases hpop : popMin st.openSet with _ | cr
    · exact ⟨[], iters, rfl, by omega, fun h => absurd rfl h⟩
    · obtain ⟨cur, rest⟩ := cr
      dsimp only
      by_cases hend : cur.2 = endP
      · rw [if_pos hend]
        rcases hlook : alookup st.cameFrom endP with _ | prev
        · refine ⟨[], iters + 1, ?_, by omega, fun h => absurd rfl h⟩
          rw [reconstructPath, hlook]
        · have hpv : prev ∈ st.visited := hInv.parentVisited endP prev hlook
          have hstep := okEdge_step w start endP prev (hInv.edges endP prev hlook)
          obtain ⟨res, hres, hresl, hlast⟩ := reconstruct_ok w start st hInv
            st.visited.length prev [endP] hpv (idxOf_lt_length _ _ hpv)
            (by simp)
            (by simp only [pathLegal, hstep.1, hstep.2.1, hstep.2.2]; rfl)
          refine ⟨res, iters + 1, ?_, by omega, fun _ => ⟨hresl, ?_⟩⟩
          · rw [reconstructPath, hlook]
            exact congrArg (fun o => (o, iters + 1)) hres
          · rw [hlast]
            rfl
      · rw [if_neg hend]
        obtain ⟨hInv1, hcurv⟩ := SearchInv_popStep w start st cur rest hInv hpop
        have hcur_ok : cur.2 = start ∨ isValidRoad w cur.2 = true := by
          rcases hInv.openOk cur (popMin_mem _ _ _ hpop).1 with h | h
          · exact Or.inl h
          · rcases Option.isSome_iff_exists.mp h with ⟨v, hv⟩
            exact Or.inr (hInv.edges cur.2 v hv).1
        have hInv2 := expandFold_inv w start endP avoid cur.2
          ((alookup st.gScore cur.2).getD 0) hcur_ok
          (getAllowedMoves (some ((getRoadDirection w cur.2).getD Dir.Right)))
          (fun m hm => hm) _ hInv1 hcurv
        obtain ⟨l, n, heq, hn, hprop⟩ := ih _ (iters + 1) hInv2
        exact ⟨l, n, heq, by omega, hprop⟩

/-- C8: findPath always returns a value: the A* loop executes at most
width * height * 25 iterations (its fuel, mirroring the maxIterations cap
checked before each pass, model.py lines 383-386), the path-reconstruction
walk always terminates (the search invariant makes the predecessor chain
strictly decrease in visit order, so the Python while loop cannot cycle),
and when the budget or the open list is exhausted without reaching the goal
the result is the empty path, not an error (model.py line 448). -/
theorem findPath_terminates_bounded (w : World) (s e : Coord) (a : Bool) :
    ∃ l, findPath w s e a = some l ∧
      findPathIters w s e a ≤ w.width * w.height * 25 := by
  by_cases hse : s = e
  · subst hse
    refine ⟨[s], ?_, ?_⟩
    · simp [findPath, findPathRun]
    · simp [findPathIters, findPathRun]
  · obtain ⟨l, n, heq, hn, _⟩ :=
      aStarLoop_spec w s e a (w.width * w.height * 25) _ 0 (SearchInv_init w s)
    refine ⟨l, ?_, ?_⟩
    · unfold findPath findPathRun
      rw [if_neg hse, heq]
    · unfold findPathIters findPathRun
      rw [if_neg hse, heq]
      simpa using hn

/-- C2 amended: every non-empty path returned by findPath for start distinct
from end is a sequence of pairwise-adjacent (unit or diagonal), in-bounds,
obstacle-free road coordinates, each step satisfying isMoveAllowedByRoad
from its predecessor (the first from start), and its last element is the
requested end coordinate.  (When start = end the function returns [end]
without validating it; see the counterexample.) -/
theorem findPath_path_legal (w : World) (s e : Coord) (a : Bool) (p : List Coord)
    (hse : s ≠ e) (hp : findPath w s e a = some p) (hne : p ≠ []) :
    pathLegal w s p = true ∧ p.getLast? = some e := by
  unfold findPath findPathRun at hp
  rw [if_neg hse] at hp
  obtain ⟨l, n, heq, _, hprop⟩ :=
    aStarLoop_spec w s e a (w.width * w.height * 25) _ 0 (SearchInv_init w s)
  rw [heq] at hp
  simp only at hp
  cases hp
  exact hprop hne

/-- C2 counterexample: with start = end the early return of findPath
(model.py lines 373-374) yields the non-empty path [end] without any
validation; at the obstacle cell (0,1) of pathWorld the returned path
consists of an obstacle cell, which is neither obstacle-free nor a valid
road, contradicting the claim as stated. -/
theorem findPath_self_unvalidated :
    findPath pathWorld (0, 1) (0, 1) true = some [(0, 1)] ∧
      pathWorld.obstacles (0, 1) = true ∧
      isValidRoad pathWorld (0, 1) = false ∧
      pathLegal pathWorld (0, 1) [(0, 1)] = false :=
  ⟨by decide, by decide, by decide, by decide⟩

/-- Witness for findPath_path_legal on pathWorld. -/
theorem findPath_path_legal_witness :
    ((0, 0) : Coord) ≠ (3, 0) ∧
      findPath pathWorld (0, 0) (3, 0) true = some [(1, 0), (2, 0), (3, 0)] ∧
      ([(1, 0), (2, 0), (3, 0)] : List Coord) ≠ [] ∧
      (pathLegal pathWorld (0, 0) [(1, 0), (2, 0), (3, 0)] = true ∧
        ([(1, 0), (2, 0), (3, 0)] : List Coord).getLast? = some (3, 0)) :=
  ⟨by decide, by decide, by decide,
    findPath_path_legal pathWorld (0, 0) (3, 0) true [(1, 0), (2, 0), (3, 0)]
      (by decide) (by decide) (by decide)⟩

end Traffic
